import Mathlib

/-!
# Verification of the meal-planner core (`src/meal_planner.py`)

Shallow embedding of the pure data-transformation core of the meal planner:
per-recipe nutrition aggregation, weekly nutrition summation, shopping-list
aggregation, the legacy-schema migration, the backup merge engine, and the
validation guards.

Modelling conventions:
* Python `dict`s are insertion-ordered association lists `List (String × α)`
  with lookup `dlookup` (first binding wins; real Python dicts have unique
  keys, which appears as `Nodup` hypotheses where it matters).
* Python floats are modelled as exact rationals `ℚ`.
* Python's stable `list.sort(key=lambda x: x["zeit"])` is modelled by
  `List.insertionSort` on the time field — any stable comparison sort
  computes the same list.
* The source keeps German identifiers (`zutaten` = ingredients, `rezepte` =
  recipes, `wochenplan` = weekly plan, `zeit` = time, `portionen` = servings,
  and the meal-slot names `Frühstück` = Breakfast, `Mittagessen` = Lunch,
  `Abendessen` = Dinner); the embedding keeps the source's names.
-/

namespace MealPlanner

/-- Python dict lookup `d[k]` (and membership `k in d`), on an
insertion-ordered association list. -/
def dlookup {α : Type} (k : String) : List (String × α) → Option α
  | [] => none
  | p :: ps => if p.1 = k then some p.2 else dlookup k ps

/-- Python `del d[k]`: remove the (unique) binding of `k`. -/
def eraseKey {α : Type} (k : String) (l : List (String × α)) : List (String × α) :=
  l.eraseP (fun p => decide (p.1 = k))

/-- An ingredient as stored in `data["zutaten"]` (per-100g macro values and a
category), cf. src/meal_planner.py lines 219–225. -/
structure Zutat where
  protein : ℚ
  kohlenhydrate : ℚ
  fett : ℚ
  kalorien : ℚ
  kategorie : String
deriving DecidableEq

/-- A recipe as stored in `data["rezepte"]`: ingredient-name → grams dict and a
serving count, cf. src/meal_planner.py lines 515–518. -/
structure Rezept where
  zutaten : List (String × ℚ)
  portionen : ℕ
deriving DecidableEq

/-- The four running totals returned by `calculate_recipe_nutrition`. -/
structure Nutrition where
  protein : ℚ
  kohlenhydrate : ℚ
  fett : ℚ
  kalorien : ℚ
deriving DecidableEq

def nutZero : Nutrition := ⟨0, 0, 0, 0⟩

def nutAdd (a b : Nutrition) : Nutrition :=
  ⟨a.protein + b.protein, a.kohlenhydrate + b.kohlenhydrate,
   a.fett + b.fett, a.kalorien + b.kalorien⟩

def nsum (l : List Nutrition) : Nutrition := l.foldr nutAdd nutZero

/-- Source `calculate_recipe_nutrition(rezept, zutaten)`, src/meal_planner.py
lines 75–88: fold over the recipe's (ingredient, grams) pairs; a pair whose
ingredient is present scales that ingredient's per-100g values by
`faktor = menge / 100` and adds them to the totals; a missing ingredient is
silently skipped. -/
def calculate_recipe_nutrition (rezept : Rezept) (zutaten : List (String × Zutat)) :
    Nutrition :=
  rezept.zutaten.foldl (fun total p =>
    match dlookup p.1 zutaten with
    | some zutat =>
        { protein := total.protein + zutat.protein * (p.2 / 100)
          kohlenhydrate := total.kohlenhydrate + zutat.kohlenhydrate * (p.2 / 100)
          fett := total.fett + zutat.fett * (p.2 / 100)
          kalorien := total.kalorien + zutat.kalorien * (p.2 / 100) }
    | none => total) ⟨0, 0, 0, 0⟩

/-- The contribution of a single (ingredient, grams) pair: per-100g values
scaled by `menge / 100`. -/
def contribOf (zutat : Zutat) (menge : ℚ) : Nutrition :=
  ⟨zutat.protein * (menge / 100), zutat.kohlenhydrate * (menge / 100),
   zutat.fett * (menge / 100), zutat.kalorien * (menge / 100)⟩

/-- The contributions of exactly those pairs whose ingredient exists in
`zutaten`; missing ingredients produce no entry. -/
def contribs (zutaten : List (String × Zutat)) (pairs : List (String × ℚ)) :
    List Nutrition :=
  pairs.filterMap (fun p => (dlookup p.1 zutaten).map (fun z => contribOf z p.2))

/-- Concrete example ingredient map (per-100g values from the source's own
sample CSV, src/meal_planner.py lines 260–263). -/
def exampleZutaten : List (String × Zutat) :=
  [("Reis", ⟨7, 77, 6/10, 350, "Getreide & Backwaren"⟩),
   ("Brokkoli", ⟨3, 7, 4/10, 34, "Obst & Gemüse"⟩)]

/-- Concrete example recipe: 200 g rice and 100 g broccoli, one serving. -/
def exampleRezept : Rezept := ⟨[("Reis", 200), ("Brokkoli", 100)], 1⟩

/-- A scheduled meal `{"zeit": ..., "rezept": ...}` (time-of-day string
`"HH:MM"` and a recipe-name reference). -/
structure Mahlzeit where
  zeit : String
  rezept : String
deriving DecidableEq

/-- Lexicographic (code-point) order on character lists: Python's string
comparison. A proper prefix compares below any extension. -/
def lexLe : List Char → List Char → Bool
  | [], _ => true
  | _ :: _, [] => false
  | c :: cs, d :: ds => if c < d then true else if d < c then false else lexLe cs ds

/-- Python `a <= b` on strings. -/
def strLe (a b : String) : Prop := lexLe a.data b.data = true

instance (a b : String) : Decidable (strLe a b) :=
  inferInstanceAs (Decidable (_ = true))

theorem lexLe_total (as bs : List Char) : lexLe as bs = true ∨ lexLe bs as = true := by
  induction as generalizing bs with
  | nil => left; rfl
  | cons c cs ih =>
    cases bs with
    | nil => right; rfl
    | cons d ds =>
      rcases lt_trichotomy c d with h | h | h
      · left; simp [lexLe, h]
      · subst h
        rcases ih ds with h' | h'
        · left; simp [lexLe, h']
        · right; simp [lexLe, h']
      · right; simp [lexLe, h]

theorem lexLe_trans {as bs cs : List Char} (h₁ : lexLe as bs = true)
    (h₂ : lexLe bs cs = true) : lexLe as cs = true := by
  induction as generalizing bs cs with
  | nil => rfl
  | cons a as' ih =>
    cases bs with
    | nil => simp [lexLe] at h₁
    | cons b bs' =>
      cases cs with
      | nil => simp [lexLe] at h₂
      | cons c cs' =>
        simp only [lexLe] at h₁ h₂ ⊢
        by_cases hab : a < b
        · by_cases hbc : b < c
          · simp [lt_trans hab hbc]
          · by_cases hcb : c < b
            · simp [hbc, hcb] at h₂
            · have hbc' : b = c := le_antisymm (not_lt.mp hcb) (not_lt.mp hbc)
              subst hbc'
              simp [hab]
        · by_cases hba : b < a
          · simp [hab, hba] at h₁
          · have hab' : a = b := le_antisymm (not_lt.mp hba) (not_lt.mp hab)
            subst hab'
            by_cases hac : a < c
            · simp [hac]
            · by_cases hca : c < a
              · simp [hac, hca] at h₂
              · simp [lt_irrefl] at h₁
                simp [hac, hca] at h₂ ⊢
                exact ih h₁ h₂

theorem strLe_total (a b : String) : strLe a b ∨ strLe b a := lexLe_total a.data b.data

theorem strLe_trans {a b c : String} (h₁ : strLe a b) (h₂ : strLe b c) : strLe a c :=
  lexLe_trans h₁ h₂

/-- The sort key comparison `key=lambda x: x["zeit"]`: compare meals by their
time string (lexicographic comparison, which on `"HH:MM"` strings is
chronological). -/
def zeitLe (a b : Mahlzeit) : Prop := strLe a.zeit b.zeit

instance : DecidableRel zeitLe := fun a b => inferInstanceAs (Decidable (strLe a.zeit b.zeit))

instance : IsTotal Mahlzeit zeitLe := ⟨fun a b => strLe_total a.zeit b.zeit⟩

instance : IsTrans Mahlzeit zeitLe := ⟨fun _ _ _ => strLe_trans⟩

/-- Python's stable `liste.sort(key=lambda x: x["zeit"])`, modelled by the
stable `List.insertionSort` (any stable comparison sort computes the same
list). -/
def sortZeit (l : List Mahlzeit) : List Mahlzeit := List.insertionSort zeitLe l

/-- A weekly plan in current shape: insertion-ordered dict from weekday name
to its list of scheduled meals. -/
abbrev Wochenplan := List (String × List Mahlzeit)

/-- The current-shape document `{zutaten, rezepte, wochenplan}`. -/
structure Doc where
  zutaten : List (String × Zutat)
  rezepte : List (String × Rezept)
  wochenplan : Wochenplan
deriving DecidableEq

/-- A day's value in a freshly loaded weekly plan: either legacy shape (dict
from meal-slot name to recipe name) or current shape (list of timed meals). -/
inductive DayValue where
  | legacy (slots : List (String × String))
  | current (meals : List Mahlzeit)
deriving DecidableEq

/-- A freshly loaded document, whose plan days may still be in legacy shape. -/
structure RawDoc where
  zutaten : List (String × Zutat)
  rezepte : List (String × Rezept)
  wochenplan : List (String × DayValue)
deriving DecidableEq

/-- The fixed slot→time table of the migration, src/meal_planner.py
lines 33–38 (Frühstück = Breakfast, Mittagessen = Lunch, Abendessen = Dinner). -/
def time_mapping : List (String × String) :=
  [("Frühstück", "08:00"), ("Mittagessen", "12:00"),
   ("Abendessen", "18:00"), ("Snacks", "15:00")]

/-- Conversion of one legacy day (the inner loop of the migration,
src/meal_planner.py lines 40–48): one `{zeit, rezept}` entry per slot whose
recipe value is non-empty (`if rezept:`), with the time looked up in
`time_mapping` (default `"12:00"`), then sorted by time. -/
def migrate_day (mahlzeiten : List (String × String)) : List Mahlzeit :=
  sortZeit (mahlzeiten.foldl (fun acc p =>
    if p.2 ≠ "" then acc ++ [⟨(dlookup p.1 time_mapping).getD "12:00", p.2⟩]
    else acc) [])

/-- Conversion of the whole legacy plan (the outer loop of the migration,
src/meal_planner.py lines 39–48). `none` models the `AttributeError` the
source would raise on `mahlzeiten.items()` if a non-dict day value were
encountered inside the loop. -/
def convert_plan : List (String × DayValue) → Option (List (String × DayValue))
  | [] => some []
  | (tag, DayValue.legacy slots) :: rest =>
      (convert_plan rest).map (fun r => (tag, DayValue.current (migrate_day slots)) :: r)
  | (_, DayValue.current _) :: _ => none

/-- The migration step inside `load_data`, src/meal_planner.py lines 27–51:
if the weekly plan is non-empty and the value of its first day is a dict
(legacy shape), rewrite every day via `convert_plan`; otherwise the document
is returned unchanged. -/
def migrate (data : RawDoc) : Option RawDoc :=
  match data.wochenplan with
  | (_, DayValue.legacy _) :: _ =>
      (convert_plan data.wochenplan).map (fun wp => { data with wochenplan := wp })
  | _ => some data

/-- The dashboard's weekly aggregation, src/meal_planner.py lines 130–144:
running totals and `meal_count` over every day's meal list; a meal counts iff
its recipe reference is truthy (non-empty) and present in `rezepte`
(`if rezept_name and rezept_name in data["rezepte"]`), and each counted meal
adds the recipe's full computed nutrition (no division by `portionen`). -/
def weekly_totals (data : Doc) : Nutrition × ℕ :=
  data.wochenplan.foldl (fun acc tagM =>
    tagM.2.foldl (fun acc m =>
      if m.rezept ≠ "" then
        match dlookup m.rezept data.rezepte with
        | some rezept =>
            (nutAdd acc.1 (calculate_recipe_nutrition rezept data.zutaten), acc.2 + 1)
        | none => acc
      else acc) acc) (nutZero, 0)

/-- The dashboard's per-day average, src/meal_planner.py lines 161–163:
computed only when `meal_count > 0`, each weekly total divided by the fixed
constant 7. -/
def daily_avg (data : Doc) : Option Nutrition :=
  if (weekly_totals data).2 > 0 then
    some ⟨(weekly_totals data).1.protein / 7, (weekly_totals data).1.kohlenhydrate / 7,
      (weekly_totals data).1.fett / 7, (weekly_totals data).1.kalorien / 7⟩
  else none

/-- The nutrition a single scheduled meal contributes to the weekly totals:
`some` of the full recipe nutrition when the reference is truthy and resolves,
`none` otherwise. -/
def mealNutrition (data : Doc) (m : Mahlzeit) : Option Nutrition :=
  if m.rezept ≠ "" then
    (dlookup m.rezept data.rezepte).map
      (fun r => calculate_recipe_nutrition r data.zutaten)
  else none

/-- Concrete example document: one recipe scheduled twice in the week. -/
def exampleDoc : Doc :=
  { zutaten := exampleZutaten
    rezepte := [("Reispfanne", exampleRezept)]
    wochenplan := [("Montag", [⟨"12:00", "Reispfanne"⟩]),
                   ("Dienstag", [⟨"18:00", "Reispfanne"⟩]),
                   ("Mittwoch", []), ("Donnerstag", []), ("Freitag", []),
                   ("Samstag", []), ("Sonntag", [])] }

/-- Source `generate_shopping_list(data)`, src/meal_planner.py lines 90–103: for
every meal in every day whose recipe reference is truthy and resolves, add
each of the recipe's (ingredient, grams) pairs into the running
per-ingredient totals (`defaultdict(float)`, so unseen ingredients start
at 0). The resulting dict is modelled by its value function. -/
def generate_shopping_list (data : Doc) : String → ℚ :=
  data.wochenplan.foldl (fun ek tagM =>
    tagM.2.foldl (fun ek m =>
      if m.rezept ≠ "" then
        match dlookup m.rezept data.rezepte with
        | some rezept =>
            rezept.zutaten.foldl
              (fun ek p => fun w => if w = p.1 then ek w + p.2 else ek w) ek
        | none => ek
      else ek) ek) (fun _ => 0)

/-- Round half to even, as Python's float formatting (`:.0f`) rounds;
computed on the numerator/denominator so it evaluates in the kernel. -/
def roundHalfEven (q : ℚ) : ℤ :=
  let f := q.num.fdiv q.den
  let r2 := 2 * (q.num - f * q.den)
  if r2 < q.den then f
  else if r2 > q.den then f + 1
  else if f % 2 = 0 then f else f + 1

/-- Python `f"{menge:.0f}"`: the gram quantity rounded to a whole number. -/
def fmt0 (q : ℚ) : String := toString (roundHalfEven q)

/-- Python `f"{menge/1000:.2f}"` for non-negative quantities: two decimal
places. -/
def fmt2 (q : ℚ) : String :=
  let n := roundHalfEven (q * 100)
  toString (n / 100) ++ "." ++ (if n % 100 < 10 then "0" else "") ++ toString (n % 100)

/-- The shopping-list display/export rounding rule, src/meal_planner.py
lines 776–779 (and identically lines 790–793): quantities ≥ 1000 g render as
kilograms with two decimals, otherwise as grams with zero decimals. -/
def format_menge (menge : ℚ) : String :=
  if menge ≥ 1000 then fmt2 (menge / 1000) ++ " kg" else fmt0 menge ++ " g"

/-- Python `", ".join(xs)`. -/
def joinComma : List String → String
  | [] => ""
  | [s] => s
  | s :: t => s ++ ", " ++ joinComma t

/-- Python `current.update(incoming)` on a dict (src/meal_planner.py
lines 911–912): for each incoming binding in order, overwrite the value in
place when the key exists, else append the new binding. -/
def dictUpdate {α : Type} (cur inc : List (String × α)) : List (String × α) :=
  inc.foldl (fun acc p =>
    if (dlookup p.1 acc).isSome then
      acc.map (fun q => if q.1 = p.1 then p else q)
    else acc ++ [p]) cur

/-- The merge-keep insertion loops (src/meal_planner.py lines 939–947):
incoming entries are added only when the key is absent. -/
def dictKeep {α : Type} (cur inc : List (String × α)) : List (String × α) :=
  inc.foldl (fun acc p =>
    if (dlookup p.1 acc).isSome then acc else acc ++ [p]) cur

/-- Merge-overwrite for one day (src/meal_planner.py lines 917–927): for each
incoming meal in order, drop every accumulated meal with the same time and
append the incoming meal; finally sort the day by time. -/
def merge_overwrite_day (cur inc : List Mahlzeit) : List Mahlzeit :=
  sortZeit (inc.foldl (fun acc m =>
    (acc.filter (fun x => decide (x.zeit ≠ m.zeit))) ++ [m]) cur)

/-- Merge-keep for one day (src/meal_planner.py lines 951–959): snapshot the
existing times of the current day, append the incoming meals whose time is
not among them, then sort by time. -/
def merge_keep_day (cur inc : List Mahlzeit) : List Mahlzeit :=
  sortZeit (cur ++ inc.filter (fun m => decide (m.zeit ∉ cur.map Mahlzeit.zeit)))

/-- The weekly-plan loop shared by both merge modes (src/meal_planner.py
lines 915–916 and 951–952): only day keys already present in the current plan
are touched; such a day's meals are replaced by the day-level merge. -/
def plan_merge (dayMerge : List Mahlzeit → List Mahlzeit → List Mahlzeit)
    (cur inc : Wochenplan) : Wochenplan :=
  inc.foldl (fun acc p =>
    if (dlookup p.1 acc).isSome then
      acc.map (fun q => if q.1 = p.1 then (q.1, dayMerge q.2 p.2) else q)
    else acc) cur

/-- Backup import, merge-overwrite mode (src/meal_planner.py lines 909–927). -/
def merge_overwrite (cur inc : Doc) : Doc :=
  { zutaten := dictUpdate cur.zutaten inc.zutaten
    rezepte := dictUpdate cur.rezepte inc.rezepte
    wochenplan := plan_merge merge_overwrite_day cur.wochenplan inc.wochenplan }

/-- Backup import, merge-keep mode (src/meal_planner.py lines 934–959). -/
def merge_keep (cur inc : Doc) : Doc :=
  { zutaten := dictKeep cur.zutaten inc.zutaten
    rezepte := dictKeep cur.rezepte inc.rezepte
    wochenplan := plan_merge merge_keep_day cur.wochenplan inc.wochenplan }

/-- Backup import, replace mode (src/meal_planner.py lines 901–904): the
incoming document verbatim; nothing is sorted or validated beyond the
top-level keys. -/
def replace_import (_cur inc : Doc) : Doc := inc

/-- Adding an ingredient (src/meal_planner.py lines 215–228): a duplicate
name is rejected with an error and no mutation; otherwise the ingredient is
appended. Result is (document, error message if any). -/
def add_zutat (doc : Doc) (name : String) (z : Zutat) : Doc × Option String :=
  if (dlookup name doc.zutaten).isSome then
    (doc, some ("Zutat '" ++ name ++ "' existiert bereits!"))
  else ({ doc with zutaten := doc.zutaten ++ [(name, z)] }, none)

/-- Saving a recipe (src/meal_planner.py lines 507–522): empty name, empty
ingredient list and duplicate name are rejected in that order with an error
and no mutation. -/
def add_rezept (doc : Doc) (name : String) (r : Rezept) : Doc × Option String :=
  if name = "" then (doc, some "Bitte gib einen Rezeptnamen ein!")
  else if r.zutaten = [] then (doc, some "Bitte füge mindestens eine Zutat hinzu!")
  else if (dlookup name doc.rezepte).isSome then
    (doc, some ("Rezept '" ++ name ++ "' existiert bereits!"))
  else ({ doc with rezepte := doc.rezepte ++ [(name, r)] }, none)

/-- The recipes still using an ingredient (src/meal_planner.py
lines 436–437). -/
def used_in (doc : Doc) (zutat_name : String) : List String :=
  (doc.rezepte.filter (fun r => (dlookup zutat_name r.2.zutaten).isSome)).map Prod.fst

/-- Deleting an ingredient (src/meal_planner.py lines 434–444): rejected, with
an error naming the using recipes, while any recipe still references it;
otherwise the binding is removed. -/
def delete_zutat (doc : Doc) (zutat_name : String) : Doc × Option String :=
  if used_in doc zutat_name ≠ [] then
    (doc, some ("Zutat wird noch in folgenden Rezepten verwendet: "
      ++ joinComma (used_in doc zutat_name)))
  else ({ doc with zutaten := eraseKey zutat_name doc.zutaten }, none)

/-- The weekday/time slots still referencing a recipe (src/meal_planner.py
lines 587–591). -/
def used_in_plan (doc : Doc) (rezept_name : String) : List String :=
  doc.wochenplan.foldl (fun acc tagM =>
    acc ++ (tagM.2.filter (fun m => decide (m.rezept = rezept_name))).map
      (fun m => tagM.1 ++ " (" ++ m.zeit ++ " Uhr)")) []

/-- Deleting a recipe (src/meal_planner.py lines 585–599): rejected while
still scheduled anywhere in the weekly plan; otherwise the binding is
removed. -/
def delete_rezept (doc : Doc) (rezept_name : String) : Doc × Option String :=
  if used_in_plan doc rezept_name ≠ [] then
    (doc, some ("Rezept wird noch im Wochenplan verwendet: "
      ++ joinComma (used_in_plan doc rezept_name)))
  else ({ doc with rezepte := eraseKey rezept_name doc.rezepte }, none)

/-- An uploaded backup JSON object; a `none` field models a missing top-level
key. -/
structure BackupData where
  zutaten : Option (List (String × Zutat))
  rezepte : Option (List (String × Rezept))
  wochenplan : Option Wochenplan
deriving DecidableEq

/-- Python `key in backup_data` for the keys the validation asks about. -/
def has_key (b : BackupData) (k : String) : Bool :=
  if k = "zutaten" then b.zutaten.isSome
  else if k = "rezepte" then b.rezepte.isSome
  else if k = "wochenplan" then b.wochenplan.isSome
  else false

/-- Source `required_keys` (src/meal_planner.py line 862). -/
def required_keys : List String := ["zutaten", "rezepte", "wochenplan"]

/-- Source `missing_keys` (src/meal_planner.py line 863). -/
def missing_keys (b : BackupData) : List String :=
  required_keys.filter (fun k => !(has_key b k))

/-- The three import modes of the backup tab (src/meal_planner.py
lines 883–891). -/
inductive ImportMode where
  | ersetzen
  | overwrite
  | keep
deriving DecidableEq

/-- Backup import (src/meal_planner.py lines 855–964): a document missing a
required top-level key is rejected with an error naming the missing keys and
no mutation occurs; otherwise the selected mode's merge is applied. -/
def import_backup (doc : Doc) (b : BackupData) (mode : ImportMode) :
    Doc × Option String :=
  if missing_keys b ≠ [] then
    (doc, some ("Ungültige Backup-Datei! Fehlende Daten: "
      ++ joinComma (missing_keys b)))
  else
    match b.zutaten, b.rezepte, b.wochenplan with
    | some bz, some br, some bw =>
        match mode with
        | ImportMode.ersetzen => (replace_import doc ⟨bz, br, bw⟩, none)
        | ImportMode.overwrite => (merge_overwrite doc ⟨bz, br, bw⟩, none)
        | ImportMode.keep => (merge_keep doc ⟨bz, br, bw⟩, none)
    | _, _, _ => (doc, none)

/-- Adding a meal to a day (src/meal_planner.py lines 699–713): append
`{zeit, rezept}` to the day's list and re-sort the day by time. No
time-collision check is made. -/
def add_meal (plan : Wochenplan) (tag zeit rezept : String) : Wochenplan :=
  plan.map (fun q => if q.1 = tag then (q.1, sortZeit (q.2 ++ [⟨zeit, rezept⟩])) else q)

/-- Deleting a meal by index (src/meal_planner.py lines 659–662):
`pop(idx)`. -/
def delete_meal (plan : Wochenplan) (tag : String) (idx : ℕ) : Wochenplan :=
  plan.map (fun q => if q.1 = tag then (q.1, q.2.eraseIdx idx) else q)

/-- Clearing one day (src/meal_planner.py lines 737–741). -/
def clear_day (plan : Wochenplan) (tag : String) : Wochenplan :=
  plan.map (fun q => if q.1 = tag then (q.1, ([] : List Mahlzeit)) else q)

/-- Clearing the whole week (src/meal_planner.py lines 744–749). -/
def clear_week (plan : Wochenplan) : Wochenplan :=
  plan.map (fun q => (q.1, ([] : List Mahlzeit)))

/-- A backup document whose Monday meal list is not sorted by time. -/
def unsortedBackup : Doc :=
  { zutaten := [], rezepte := []
    wochenplan := [("Montag", [⟨"18:00", "Suppe"⟩, ⟨"08:00", "Brei"⟩])] }

/-- Current document for the merge examples: one ingredient, one recipe, two
Monday meals. -/
def curDocMerge : Doc :=
  { zutaten := [("Reis", ⟨7, 77, 6/10, 350, "Getreide & Backwaren"⟩)]
    rezepte := [("Reispfanne", exampleRezept)]
    wochenplan := [("Montag", [⟨"08:00", "Brei"⟩, ⟨"12:00", "Reispfanne"⟩]),
                   ("Dienstag", [])] }

/-- Incoming backup for the merge examples: a colliding `Reis` entry with
different values, a new ingredient and recipe, a Monday list colliding on
12:00, and a day key (`Sonntag`) absent from the current plan. -/
def incDocMerge : Doc :=
  { zutaten := [("Reis", ⟨8, 70, 1, 360, "Getreide & Backwaren"⟩),
                ("Linsen", ⟨9, 20, 1/2, 120, "Hülsenfrüchte"⟩)]
    rezepte := [("Linsensuppe", ⟨[("Linsen", 150)], 2⟩)]
    wochenplan := [("Montag", [⟨"12:00", "Linsensuppe"⟩, ⟨"18:00", "Linsensuppe"⟩]),
                   ("Sonntag", [⟨"09:00", "Linsensuppe"⟩])] }

@[simp] theorem nutAdd_zero (a : Nutrition) : nutAdd a nutZero = a := by
  cases a; simp [nutAdd, nutZero]

@[simp] theorem zero_nutAdd (a : Nutrition) : nutAdd nutZero a = a := by
  cases a; simp [nutAdd, nutZero]

theorem nutAdd_assoc (a b c : Nutrition) :
    nutAdd (nutAdd a b) c = nutAdd a (nutAdd b c) := by
  cases a; cases b; cases c; simp [nutAdd]; refine ⟨?_, ?_, ?_, ?_⟩ <;> ring

theorem nutAdd_comm (a b : Nutrition) : nutAdd a b = nutAdd b a := by
  cases a; cases b; simp [nutAdd]; refine ⟨?_, ?_, ?_, ?_⟩ <;> ring

@[simp] theorem nsum_nil : nsum [] = nutZero := rfl

@[simp] theorem nsum_cons (a : Nutrition) (l : List Nutrition) :
    nsum (a :: l) = nutAdd a (nsum l) := rfl

theorem nsum_append (l₁ l₂ : List Nutrition) :
    nsum (l₁ ++ l₂) = nutAdd (nsum l₁) (nsum l₂) := by
  induction l₁ with
  | nil => simp
  | cons a t ih => simp [ih, nutAdd_assoc]

@[simp] theorem dlookup_nil {α : Type} (k : String) : dlookup k ([] : List (String × α)) = none := rfl

@[simp] theorem dlookup_cons {α : Type} (k : String) (p : String × α) (l : List (String × α)) :
    dlookup k (p :: l) = if p.1 = k then some p.2 else dlookup k l := rfl

theorem dlookup_eq_none_of_not_mem {α : Type} {k : String} {l : List (String × α)}
    (h : k ∉ l.map Prod.fst) : dlookup k l = none := by
  induction l with
  | nil => rfl
  | cons p t ih =>
    simp only [List.map_cons, List.mem_cons] at h
    push_neg at h
    simp [Ne.symm h.1, ih h.2]

theorem dlookup_eraseKey {α : Type} {l : List (String × α)} (hk : (l.map Prod.fst).Nodup)
    (m n : String) :
    dlookup m (eraseKey n l) = if m = n then none else dlookup m l := by
  induction l with
  | nil => simp [eraseKey]
  | cons p t ih =>
    simp only [List.map_cons, List.nodup_cons] at hk
    by_cases hpn : p.1 = n
    · have ht : eraseKey n (p :: t) = t := by
        simp [eraseKey, List.eraseP_cons, hpn]
      rw [ht]
      by_cases hmn : m = n
      · subst hmn
        simp [dlookup_eq_none_of_not_mem (hpn ▸ hk.1)]
      · have hpm : ¬p.1 = m := fun h => hmn (h ▸ hpn)
        simp [hmn, hpm]
    · have ht : eraseKey n (p :: t) = p :: eraseKey n t := by
        simp [eraseKey, List.eraseP_cons, hpn]
      rw [ht]
      by_cases hpm : p.1 = m
      · have hmn : ¬m = n := fun h => hpn (hpm.trans h)
        simp [hpm, hmn]
      · simp [hpm, ih hk.2]

/-- The fold in `calculate_recipe_nutrition` accumulates exactly the sum of the
present pairs' contributions. -/
theorem calculate_recipe_nutrition_eq_nsum (r : Rezept) (I : List (String × Zutat)) :
    calculate_recipe_nutrition r I = nsum (contribs I r.zutaten) := by
  suffices h : ∀ (l : List (String × ℚ)) (acc : Nutrition),
      l.foldl (fun total p =>
        match dlookup p.1 I with
        | some zutat =>
            { protein := total.protein + zutat.protein * (p.2 / 100)
              kohlenhydrate := total.kohlenhydrate + zutat.kohlenhydrate * (p.2 / 100)
              fett := total.fett + zutat.fett * (p.2 / 100)
              kalorien := total.kalorien + zutat.kalorien * (p.2 / 100) }
        | none => total) acc = nutAdd acc (nsum (contribs I l)) by
    have := h r.zutaten ⟨0, 0, 0, 0⟩
    simpa [calculate_recipe_nutrition, contribs, show (⟨0,0,0,0⟩ : Nutrition) = nutZero from rfl]
      using this
  intro l
  induction l with
  | nil => intro acc; simp [contribs]
  | cons p t ih =>
    intro acc
    cases hp : dlookup p.1 I with
    | none =>
      simp only [List.foldl_cons, hp]
      rw [ih acc]
      simp [contribs, hp]
    | some z =>
      simp only [List.foldl_cons, hp]
      rw [ih]
      have hstep :
          ({ protein := acc.protein + z.protein * (p.2 / 100)
             kohlenhydrate := acc.kohlenhydrate + z.kohlenhydrate * (p.2 / 100)
             fett := acc.fett + z.fett * (p.2 / 100)
             kalorien := acc.kalorien + z.kalorien * (p.2 / 100) } : Nutrition)
            = nutAdd acc (contribOf z p.2) := by
        simp [nutAdd, contribOf]
      rw [hstep]
      simp only [contribs, List.filterMap_cons, hp, Option.map_some]
      show nutAdd (nutAdd acc (contribOf z p.2)) (nsum (contribs I t))
        = nutAdd acc (nsum (contribOf z p.2 :: contribs I t))
      rw [nsum_cons, nutAdd_assoc]

theorem contribs_cons_some {I : List (String × Zutat)} {p : String × ℚ} {z : Zutat}
    (t : List (String × ℚ)) (h : dlookup p.1 I = some z) :
    contribs I (p :: t) = contribOf z p.2 :: contribs I t := by
  simp [contribs, List.filterMap_cons, h]

theorem contribs_cons_none {I : List (String × Zutat)} {p : String × ℚ}
    (t : List (String × ℚ)) (h : dlookup p.1 I = none) :
    contribs I (p :: t) = contribs I t := by
  simp [contribs, List.filterMap_cons, h]

/-- Removing one ingredient from the map removes exactly that ingredient's
contributions from the per-recipe sum. -/
theorem nsum_contribs_eraseKey (I : List (String × Zutat))
    (hI : (I.map Prod.fst).Nodup) (n : String) (l : List (String × ℚ)) :
    nsum (contribs I l)
      = nutAdd (nsum (contribs (eraseKey n I) l))
          (nsum (contribs I (l.filter (fun p => decide (p.1 = n))))) := by
  induction l with
  | nil => simp [contribs]
  | cons p t ih =>
    by_cases hpn : p.1 = n
    · have h1 : dlookup p.1 (eraseKey n I) = none := by
        rw [dlookup_eraseKey hI]; simp [hpn]
      have hfil : (p :: t).filter (fun q => decide (q.1 = n))
          = p :: t.filter (fun q => decide (q.1 = n)) :=
        List.filter_cons_of_pos (by simp [hpn])
      cases hp : dlookup p.1 I with
      | none =>
        rw [contribs_cons_none t hp, contribs_cons_none t h1, hfil,
          contribs_cons_none _ hp]
        exact ih
      | some z =>
        rw [contribs_cons_some t hp, contribs_cons_none t h1, hfil,
          contribs_cons_some _ hp, nsum_cons, nsum_cons, ih,
          ← nutAdd_assoc, nutAdd_comm (contribOf z p.2) _, nutAdd_assoc]
    · have h1 : dlookup p.1 (eraseKey n I) = dlookup p.1 I := by
        rw [dlookup_eraseKey hI]; simp [hpn]
      have hfil : (p :: t).filter (fun q => decide (q.1 = n))
          = t.filter (fun q => decide (q.1 = n)) :=
        List.filter_cons_of_neg (by simp [hpn])
      cases hp : dlookup p.1 I with
      | none =>
        rw [contribs_cons_none t hp, contribs_cons_none t (h1.trans hp), hfil]
        exact ih
      | some z =>
        rw [contribs_cons_some t hp, contribs_cons_some t (h1.trans hp), hfil,
          nsum_cons, nsum_cons, ih, nutAdd_assoc]

/-- C1: `computeNutrition(R, I)` returns totals equal to the sum, over exactly
those (ingredientName, grams) pairs of `R` whose ingredient exists in `I`, of
the per-100g values times `grams/100` (missing ingredients silently skipped),
and removing one ingredient `n` from `I` changes the result by exactly that
ingredient's contribution and no other. -/
theorem calculate_recipe_nutrition_spec (r : Rezept) (I : List (String × Zutat))
    (n : String) (hI : (I.map Prod.fst).Nodup) :
    calculate_recipe_nutrition r I = nsum (contribs I r.zutaten) ∧
    calculate_recipe_nutrition r I
      = nutAdd (calculate_recipe_nutrition r (eraseKey n I))
          (nsum (contribs I (r.zutaten.filter (fun p => decide (p.1 = n))))) := by
  refine ⟨calculate_recipe_nutrition_eq_nsum r I, ?_⟩
  rw [calculate_recipe_nutrition_eq_nsum, calculate_recipe_nutrition_eq_nsum]
  exact nsum_contribs_eraseKey I hI n r.zutaten

/-- Witness for `calculate_recipe_nutrition_spec` at a concrete recipe and
ingredient map, removing the ingredient `"Reis"`. -/
theorem calculate_recipe_nutrition_spec_witness :
    (exampleZutaten.map Prod.fst).Nodup ∧
    (calculate_recipe_nutrition exampleRezept exampleZutaten
        = nsum (contribs exampleZutaten exampleRezept.zutaten) ∧
      calculate_recipe_nutrition exampleRezept exampleZutaten
        = nutAdd (calculate_recipe_nutrition exampleRezept (eraseKey "Reis" exampleZutaten))
            (nsum (contribs exampleZutaten
              (exampleRezept.zutaten.filter (fun p => decide (p.1 = "Reis")))))) :=
  ⟨by decide,
   calculate_recipe_nutrition_spec exampleRezept exampleZutaten "Reis" (by decide)⟩

theorem sortZeit_perm (l : List Mahlzeit) : (sortZeit l).Perm l :=
  List.perm_insertionSort zeitLe l

theorem sortZeit_sorted (l : List Mahlzeit) : List.Pairwise zeitLe (sortZeit l) :=
  List.sorted_insertionSort zeitLe l

/-- The (ingredient-assembly) fold of the migration's inner loop builds the
`filterMap` of the slot dict. -/
theorem migrate_day_foldl (l : List (String × String)) (acc : List Mahlzeit) :
    l.foldl (fun acc p =>
      if p.2 ≠ "" then acc ++ [⟨(dlookup p.1 time_mapping).getD "12:00", p.2⟩]
      else acc) acc
    = acc ++ l.filterMap (fun p =>
        if p.2 ≠ "" then some ⟨(dlookup p.1 time_mapping).getD "12:00", p.2⟩
        else none) := by
  induction l generalizing acc with
  | nil => simp
  | cons p t ih =>
    simp only [List.foldl_cons, List.filterMap_cons]
    by_cases h : p.2 = ""
    · rw [if_neg (by simp [h]), if_neg (by simp [h])]
      exact ih acc
    · rw [if_pos (by simp [h]), if_pos (by simp [h]), ih]
      simp

theorem convert_plan_legacy (plans : List (String × List (String × String))) :
    convert_plan (plans.map (fun q => (q.1, DayValue.legacy q.2)))
      = some (plans.map (fun q => (q.1, DayValue.current (migrate_day q.2)))) := by
  induction plans with
  | nil => rfl
  | cons q t ih => simp [convert_plan, ih]

/-- C2: migration of a legacy-format document converts each day's meal-slot
dict into one `{zeit, rezept}` entry per slot with a non-empty recipe value,
with the time from the fixed table (`Frühstück` = Breakfast → 08:00,
`Mittagessen` = Lunch → 12:00, `Abendessen` = Dinner → 18:00,
Snacks → 15:00; unrecognized slots default to 12:00), drops empty slots, and
sorts each day ascending by time; in particular the Breakfast=Oats, Lunch="",
Dinner=Soup day yields `[{08:00, Oats}, {18:00, Soup}]`. -/
theorem migrate_legacy_spec (dz : List (String × Zutat)) (dr : List (String × Rezept))
    (q : String × List (String × String)) (rest : List (String × List (String × String))) :
    migrate ⟨dz, dr, ((q :: rest).map (fun d => (d.1, DayValue.legacy d.2)))⟩
      = some ⟨dz, dr, ((q :: rest).map (fun d => (d.1, DayValue.current (migrate_day d.2))))⟩ ∧
    (∀ slots : List (String × String),
      (migrate_day slots).Perm (slots.filterMap (fun p =>
        if p.2 ≠ "" then some ⟨(dlookup p.1 time_mapping).getD "12:00", p.2⟩
        else none))) ∧
    (∀ slots : List (String × String), List.Pairwise zeitLe (migrate_day slots)) ∧
    migrate_day [("Frühstück", "Oats"), ("Mittagessen", ""), ("Abendessen", "Soup")]
      = [⟨"08:00", "Oats"⟩, ⟨"18:00", "Soup"⟩] := by
  refine ⟨?_, ?_, ?_, by decide⟩
  · have h := convert_plan_legacy (q :: rest)
    simp only [List.map_cons] at h ⊢
    simp [migrate, h]
  · intro slots
    have h : migrate_day slots = sortZeit (slots.filterMap (fun p =>
        if p.2 ≠ "" then some ⟨(dlookup p.1 time_mapping).getD "12:00", p.2⟩
        else none)) := by
      unfold migrate_day
      rw [migrate_day_foldl]
      simp
    rw [h]
    exact sortZeit_perm _
  · intro slots
    unfold migrate_day
    exact sortZeit_sorted _

/-- C7: migration is idempotent — rerunning migration on the result of a
(successful or failed) migration changes nothing; and on an already-current
document (first day value a list) migration returns the document unchanged,
because the legacy-shape detection fails. -/
theorem migrate_idempotent (d : RawDoc) :
    (migrate d).bind migrate = migrate d ∧
    (∀ (dz : List (String × Zutat)) (dr : List (String × Rezept)) (tag : String)
      (meals : List Mahlzeit) (rest : List (String × DayValue)),
      migrate ⟨dz, dr, (tag, DayValue.current meals) :: rest⟩
        = some ⟨dz, dr, (tag, DayValue.current meals) :: rest⟩) := by
  constructor
  · obtain ⟨dz, dr, wp⟩ := d
    match wp with
    | [] => rfl
    | (t, DayValue.current m) :: rest => rfl
    | (t, DayValue.legacy s) :: rest =>
      have h1 : migrate ⟨dz, dr, (t, DayValue.legacy s) :: rest⟩
          = (convert_plan ((t, DayValue.legacy s) :: rest)).map
              (fun wp => { zutaten := dz, rezepte := dr, wochenplan := wp }) := rfl
      rw [h1]
      rw [show convert_plan ((t, DayValue.legacy s) :: rest)
          = (convert_plan rest).map
              (fun r => (t, DayValue.current (migrate_day s)) :: r) from rfl]
      cases hr : convert_plan rest with
      | none => rfl
      | some r' => rfl
  · intro dz dr tag meals rest
    rfl

/-- The nested per-day folds of the dashboard equal one fold over the
flattened list of all scheduled meals. -/
theorem foldl_plan_flatten {β : Type} (g : β → Mahlzeit → β) (init : β)
    (plan : Wochenplan) :
    plan.foldl (fun acc tagM => tagM.2.foldl g acc) init
      = ((plan.map Prod.snd).flatten).foldl g init := by
  induction plan generalizing init with
  | nil => rfl
  | cons p t ih => simp [List.foldl_append, ih]

/-- One fold over a meal list accumulates the counted meals' nutrition sum and
their count. -/
theorem foldl_meals_characterization (data : Doc) (meals : List Mahlzeit)
    (acc : Nutrition × ℕ) :
    meals.foldl (fun acc m =>
      if m.rezept ≠ "" then
        match dlookup m.rezept data.rezepte with
        | some rezept =>
            (nutAdd acc.1 (calculate_recipe_nutrition rezept data.zutaten), acc.2 + 1)
        | none => acc
      else acc) acc
    = (nutAdd acc.1 (nsum (meals.filterMap (mealNutrition data))),
       acc.2 + meals.countP (fun m => (mealNutrition data m).isSome)) := by
  induction meals generalizing acc with
  | nil => simp
  | cons m t ih =>
    by_cases hm : m.rezept = ""
    · have h1 : mealNutrition data m = none := by simp [mealNutrition, hm]
      simp only [List.foldl_cons, if_neg (by simp [hm] : ¬m.rezept ≠ "")]
      rw [ih, List.filterMap_cons_none h1, List.countP_cons]
      simp [h1]
    · cases hr : dlookup m.rezept data.rezepte with
      | none =>
        have h1 : mealNutrition data m = none := by simp [mealNutrition, hm, hr]
        simp only [List.foldl_cons, if_pos (by simp [hm] : m.rezept ≠ ""), hr]
        rw [ih, List.filterMap_cons_none h1, List.countP_cons]
        simp [h1]
      | some r =>
        have h1 : mealNutrition data m
            = some (calculate_recipe_nutrition r data.zutaten) := by
          simp [mealNutrition, hm, hr]
        simp only [List.foldl_cons, if_pos (by simp [hm] : m.rezept ≠ ""), hr]
        rw [ih, List.filterMap_cons_some h1, List.countP_cons]
        simp only [nsum_cons, h1, Option.isSome_some, if_pos, Prod.mk.injEq]
        refine ⟨?_, by omega⟩
        rw [← nutAdd_assoc, nutAdd_comm acc.1 _, nutAdd_assoc]

/-- C3: the weekly aggregation counts exactly the meal occurrences whose
recipe reference resolves, adds each such occurrence's full recipe nutrition
(not divided by the serving count) to the weekly totals, and the per-day
average is the weekly totals divided by the fixed constant 7, computed only
when `meal_count > 0`. -/
theorem weekly_totals_spec (data : Doc) (hempty : dlookup "" data.rezepte = none) :
    (weekly_totals data).2
      = ((data.wochenplan.map Prod.snd).flatten.countP
          (fun m => (dlookup m.rezept data.rezepte).isSome)) ∧
    (weekly_totals data).1
      = nsum ((data.wochenplan.map Prod.snd).flatten.filterMap (fun m =>
          (dlookup m.rezept data.rezepte).map
            (fun r => calculate_recipe_nutrition r data.zutaten))) ∧
    (0 < (weekly_totals data).2 → daily_avg data
        = some ⟨(weekly_totals data).1.protein / 7,
            (weekly_totals data).1.kohlenhydrate / 7,
            (weekly_totals data).1.fett / 7,
            (weekly_totals data).1.kalorien / 7⟩) ∧
    ((weekly_totals data).2 = 0 → daily_avg data = none) := by
  have hmain : weekly_totals data
      = (nsum (((data.wochenplan.map Prod.snd).flatten).filterMap (mealNutrition data)),
         ((data.wochenplan.map Prod.snd).flatten).countP
           (fun m => (mealNutrition data m).isSome)) := by
    unfold weekly_totals
    rw [foldl_plan_flatten, foldl_meals_characterization]
    simp
  have hfun : ∀ m : Mahlzeit, mealNutrition data m
      = (dlookup m.rezept data.rezepte).map
          (fun r => calculate_recipe_nutrition r data.zutaten) := by
    intro m
    by_cases hm : m.rezept = ""
    · simp [mealNutrition, hm, hempty]
    · simp [mealNutrition, hm]
  refine ⟨?_, ?_, ?_, ?_⟩
  · rw [hmain]
    exact List.countP_congr (fun m _ => by rw [hfun m]; simp)
  · rw [hmain]
    rw [List.filterMap_congr (fun m _ => hfun m)]
  · intro hpos
    simp [daily_avg, hpos]
  · intro hz
    simp [daily_avg, hz]

/-- Witness for `weekly_totals_spec`: the example document with one recipe
scheduled twice. -/
theorem weekly_totals_spec_witness :
    dlookup "" exampleDoc.rezepte = none ∧
    ((weekly_totals exampleDoc).2
      = ((exampleDoc.wochenplan.map Prod.snd).flatten.countP
          (fun m => (dlookup m.rezept exampleDoc.rezepte).isSome)) ∧
    (weekly_totals exampleDoc).1
      = nsum ((exampleDoc.wochenplan.map Prod.snd).flatten.filterMap (fun m =>
          (dlookup m.rezept exampleDoc.rezepte).map
            (fun r => calculate_recipe_nutrition r exampleDoc.zutaten))) ∧
    (0 < (weekly_totals exampleDoc).2 → daily_avg exampleDoc
        = some ⟨(weekly_totals exampleDoc).1.protein / 7,
            (weekly_totals exampleDoc).1.kohlenhydrate / 7,
            (weekly_totals exampleDoc).1.fett / 7,
            (weekly_totals exampleDoc).1.kalorien / 7⟩) ∧
    ((weekly_totals exampleDoc).2 = 0 → daily_avg exampleDoc = none)) :=
  ⟨by decide, weekly_totals_spec exampleDoc (by decide)⟩

/-- One fold over a recipe's ingredient pairs bumps the shopping total of `z`
by the sum of the `z`-pairs' quantities. -/
theorem foldl_zutaten_add (pairs : List (String × ℚ)) (ek : String → ℚ) (z : String) :
    (pairs.foldl (fun ek p => fun w => if w = p.1 then ek w + p.2 else ek w) ek) z
      = ek z + ((pairs.filter (fun p => decide (p.1 = z))).map Prod.snd).sum := by
  induction pairs generalizing ek with
  | nil => simp
  | cons p t ih =>
    rw [List.foldl_cons, ih]
    by_cases hz : p.1 = z
    · rw [List.filter_cons_of_pos (by simp [hz]), if_pos hz.symm]
      simp only [List.map_cons, List.sum_cons]
      ring
    · rw [List.filter_cons_of_neg (by simp [hz]), if_neg (fun h => hz h.symm)]

/-- One fold over a meal list accumulates the resolved meals' ingredient
quantities for `z`. -/
theorem foldl_meals_shopping (data : Doc) (meals : List Mahlzeit)
    (ek : String → ℚ) (z : String) :
    (meals.foldl (fun ek m =>
      if m.rezept ≠ "" then
        match dlookup m.rezept data.rezepte with
        | some rezept =>
            rezept.zutaten.foldl
              (fun ek p => fun w => if w = p.1 then ek w + p.2 else ek w) ek
        | none => ek
      else ek) ek) z
    = ek z + ((meals.filterMap (fun m =>
          if m.rezept ≠ "" then dlookup m.rezept data.rezepte else none)).map
        (fun r => ((r.zutaten.filter (fun p => decide (p.1 = z))).map Prod.snd).sum)).sum := by
  induction meals generalizing ek with
  | nil => simp
  | cons m t ih =>
    by_cases hm : m.rezept = ""
    · rw [List.foldl_cons, if_neg (by simp [hm]), ih,
        List.filterMap_cons_none (by simp [hm])]
    · cases hr : dlookup m.rezept data.rezepte with
      | none =>
        simp only [List.foldl_cons, hr, if_pos (show m.rezept ≠ "" by simp [hm])]
        rw [ih, List.filterMap_cons_none (by simp [hm, hr])]
      | some r =>
        simp only [List.foldl_cons, hr, if_pos (show m.rezept ≠ "" by simp [hm])]
        rw [ih, foldl_zutaten_add,
          @List.filterMap_cons_some Mahlzeit Rezept
            (fun m => if m.rezept ≠ "" then dlookup m.rezept data.rezepte else none) m t r
            (by simp [hm, hr])]
        simp only [List.map_cons, List.sum_cons]
        ring

/-- C4: the shopping list maps every ingredient to the sum of the full
(unscaled by servings) recipe quantities over all resolved meal occurrences,
starting from 0; two scheduled meals of a recipe with 200 g rice yield 400;
and the display rule renders ≥ 1000 g as kilograms with two decimals,
otherwise grams with zero decimals, so 400 renders as `"400 g"`. -/
theorem generate_shopping_list_spec (data : Doc) (z : String)
    (hempty : dlookup "" data.rezepte = none) :
    generate_shopping_list data z
      = (((data.wochenplan.map Prod.snd).flatten.filterMap
            (fun m => dlookup m.rezept data.rezepte)).map
          (fun r => ((r.zutaten.filter (fun p => decide (p.1 = z))).map Prod.snd).sum)).sum ∧
    generate_shopping_list exampleDoc "Reis" = 400 ∧
    format_menge 400 = "400 g" ∧
    (∀ menge : ℚ, 1000 ≤ menge → format_menge menge = fmt2 (menge / 1000) ++ " kg") ∧
    (∀ menge : ℚ, menge < 1000 → format_menge menge = fmt0 menge ++ " g") := by
  refine ⟨?_, ?_, by decide, ?_, ?_⟩
  · unfold generate_shopping_list
    rw [foldl_plan_flatten, foldl_meals_shopping]
    have hfn : ∀ m : Mahlzeit,
        (if m.rezept ≠ "" then dlookup m.rezept data.rezepte else none)
          = dlookup m.rezept data.rezepte := by
      intro m
      by_cases hm : m.rezept = ""
      · simp [hm, hempty]
      · simp [hm]
    rw [List.filterMap_congr (fun m _ => hfn m)]
    simp
  · simp +decide [generate_shopping_list, exampleDoc, exampleRezept, exampleZutaten, dlookup]
    norm_num
  · intro menge h
    simp only [format_menge]
    rw [if_pos h]
  · intro menge h
    simp only [format_menge]
    rw [if_neg (not_le.mpr h)]

/-- Witness for `generate_shopping_list_spec`: the example document, queried
for the rice ingredient. -/
theorem generate_shopping_list_spec_witness :
    dlookup "" exampleDoc.rezepte = none ∧
    (generate_shopping_list exampleDoc "Reis"
      = (((exampleDoc.wochenplan.map Prod.snd).flatten.filterMap
            (fun m => dlookup m.rezept exampleDoc.rezepte)).map
          (fun r => ((r.zutaten.filter
              (fun p => decide (p.1 = "Reis"))).map Prod.snd).sum)).sum ∧
    generate_shopping_list exampleDoc "Reis" = 400 ∧
    format_menge 400 = "400 g" ∧
    (∀ menge : ℚ, 1000 ≤ menge → format_menge menge = fmt2 (menge / 1000) ++ " kg") ∧
    (∀ menge : ℚ, menge < 1000 → format_menge menge = fmt0 menge ++ " g")) :=
  ⟨by decide, generate_shopping_list_spec exampleDoc "Reis" (by decide)⟩

@[simp] theorem some_or {α : Type} (a : α) (o : Option α) : (some a).or o = some a := rfl

theorem dlookup_append {α : Type} (l₁ l₂ : List (String × α)) (n : String) :
    dlookup n (l₁ ++ l₂) = (dlookup n l₁).or (dlookup n l₂) := by
  induction l₁ with
  | nil => simp
  | cons p t ih =>
    by_cases hp : p.1 = n
    · simp [hp]
    · simp [hp, ih]

/-- Looking up in a list whose `k`-bindings were overwritten with the pair
`p`. -/
theorem dlookup_map_overwrite {α : Type} (l : List (String × α)) (p : String × α)
    (n : String) :
    dlookup n (l.map (fun q => if q.1 = p.1 then p else q))
      = if n = p.1 then (if (dlookup p.1 l).isSome then some p.2 else none)
        else dlookup n l := by
  induction l with
  | nil => by_cases h : n = p.1 <;> simp [h]
  | cons q t ih =>
    by_cases hq : q.1 = p.1
    · by_cases hn : n = p.1
      · simp [hq, hn.symm ▸ hq, hn, ih]
      · have : ¬q.1 = n := fun h => hn (h ▸ hq :)
        simp only [List.map_cons, if_pos hq, dlookup_cons,
          if_neg (show ¬p.1 = n from fun h => hn h.symm), if_neg this, ih, if_neg hn]
    · by_cases hn : n = p.1
      · have : ¬q.1 = n := fun h => hq (h.trans hn)
        simp only [List.map_cons, if_neg hq, dlookup_cons, if_neg this, ih, if_pos hn,
          if_neg (show ¬q.1 = p.1 from hq)]
      · simp only [List.map_cons, if_neg hq, dlookup_cons, ih, if_neg hn]

/-- Looking up in a list whose `k`-bindings' values were modified by `g`. -/
theorem dlookup_map_modify {α : Type} (l : List (String × α)) (k : String)
    (g : α → α) (n : String) :
    dlookup n (l.map (fun q => if q.1 = k then (q.1, g q.2) else q))
      = if n = k then (dlookup k l).map g else dlookup n l := by
  induction l with
  | nil => by_cases h : n = k <;> simp [h]
  | cons q t ih =>
    by_cases hq : q.1 = k
    · by_cases hn : n = k
      · simp [hq, hn, hq.trans hn.symm, ih]
      · have h1 : ¬q.1 = n := fun h => hn (h ▸ hq :)
        simp only [List.map_cons, if_pos hq, dlookup_cons, if_neg h1, ih, if_neg hn]
    · by_cases hn : n = k
      · have h1 : ¬q.1 = n := fun h => hq (h.trans hn)
        simp only [List.map_cons, if_neg hq, dlookup_cons, if_neg h1, ih, if_pos hn,
          if_neg hq]
      · simp only [List.map_cons, if_neg hq, dlookup_cons, ih, if_neg hn]

/-- Python `dict.update`: lookup is right-biased union of the lookups (incoming keys
unique, as in a real Python dict). -/
theorem dlookup_dictUpdate {α : Type} (cur inc : List (String × α))
    (hinc : (inc.map Prod.fst).Nodup) (n : String) :
    dlookup n (dictUpdate cur inc) = (dlookup n inc).or (dlookup n cur) := by
  induction inc generalizing cur with
  | nil => simp [dictUpdate]
  | cons p t ih =>
    simp only [List.map_cons, List.nodup_cons] at hinc
    have hstep : dictUpdate cur (p :: t)
        = dictUpdate (if (dlookup p.1 cur).isSome then
            cur.map (fun q => if q.1 = p.1 then p else q)
          else cur ++ [p]) t := by
      simp [dictUpdate, List.foldl_cons]
    rw [hstep, ih _ hinc.2]
    by_cases hn : n = p.1
    · have ht : dlookup n t = none :=
        dlookup_eq_none_of_not_mem (by rw [hn]; exact hinc.1)
      have hrhs : dlookup n (p :: t) = some p.2 := by
        simp [dlookup_cons, hn.symm]
      rw [ht, hrhs, Option.none_or, some_or]
      by_cases hc : (dlookup p.1 cur).isSome
      · rw [if_pos hc, dlookup_map_overwrite, if_pos hn, if_pos hc]
      · rw [if_neg hc, dlookup_append]
        have hcn : dlookup n cur = none := by
          rw [hn]; exact Option.not_isSome_iff_eq_none.mp hc
        rw [hcn, Option.none_or]
        simp [dlookup_cons, hn.symm]
    · have hrhs : dlookup n (p :: t) = dlookup n t := by
        simp [dlookup_cons, show ¬p.1 = n from fun h => hn h.symm]
      rw [hrhs]
      by_cases hc : (dlookup p.1 cur).isSome
      · rw [if_pos hc, dlookup_map_overwrite, if_neg hn]
      · rw [if_neg hc, dlookup_append]
        have hpn : dlookup n [p] = none := by
          simp [dlookup_cons, show ¬p.1 = n from fun h => hn h.symm]
        rw [hpn, Option.or_none]

/-- Merge-keep insertion: lookup is left-biased union of the lookups. -/
theorem dlookup_dictKeep {α : Type} (cur inc : List (String × α)) (n : String) :
    dlookup n (dictKeep cur inc) = (dlookup n cur).or (dlookup n inc) := by
  induction inc generalizing cur with
  | nil => simp [dictKeep]
  | cons p t ih =>
    have hstep : dictKeep cur (p :: t)
        = dictKeep (if (dlookup p.1 cur).isSome then cur else cur ++ [p]) t := by
      simp [dictKeep, List.foldl_cons]
    rw [hstep, ih]
    by_cases hc : (dlookup p.1 cur).isSome
    · rw [if_pos hc]
      by_cases hn : p.1 = n
      · obtain ⟨v, hv⟩ := Option.isSome_iff_exists.mp hc
        rw [← hn, hv]
        simp [dlookup_cons]
      · simp [dlookup_cons, hn]
    · rw [if_neg hc, dlookup_append]
      by_cases hn : p.1 = n
      · rw [← hn, Option.not_isSome_iff_eq_none.mp hc]
        simp [dlookup_cons]
      · simp [dlookup_cons, hn, Option.or_assoc]

/-- The per-plan merge loop never changes the day keys. -/
theorem plan_merge_keys (dayMerge : List Mahlzeit → List Mahlzeit → List Mahlzeit)
    (cur inc : Wochenplan) :
    (plan_merge dayMerge cur inc).map Prod.fst = cur.map Prod.fst := by
  induction inc generalizing cur with
  | nil => rfl
  | cons p t ih =>
    have hstep : plan_merge dayMerge cur (p :: t)
        = plan_merge dayMerge (if (dlookup p.1 cur).isSome then
            cur.map (fun q => if q.1 = p.1 then (q.1, dayMerge q.2 p.2) else q)
          else cur) t := by
      simp [plan_merge, List.foldl_cons]
    rw [hstep, ih]
    by_cases hc : (dlookup p.1 cur).isSome
    · rw [if_pos hc, List.map_map]
      apply List.map_congr_left
      intro q _
      by_cases hq : q.1 = p.1 <;> simp [hq]
    · rw [if_neg hc]

/-- A day key absent from the incoming plan is untouched by the merge loop. -/
theorem plan_merge_untouched (dayMerge : List Mahlzeit → List Mahlzeit → List Mahlzeit)
    (cur inc : Wochenplan) (tag : String) (htag : dlookup tag inc = none) :
    dlookup tag (plan_merge dayMerge cur inc) = dlookup tag cur := by
  induction inc generalizing cur with
  | nil => rfl
  | cons p t ih =>
    have hpt : ¬p.1 = tag := by
      intro h
      simp [dlookup_cons, h] at htag
    have ht : dlookup tag t = none := by
      simpa [dlookup_cons, hpt] using htag
    have hstep : plan_merge dayMerge cur (p :: t)
        = plan_merge dayMerge (if (dlookup p.1 cur).isSome then
            cur.map (fun q => if q.1 = p.1 then (q.1, dayMerge q.2 p.2) else q)
          else cur) t := by
      simp [plan_merge, List.foldl_cons]
    rw [hstep, ih _ ht]
    by_cases hc : (dlookup p.1 cur).isSome
    · rw [if_pos hc, dlookup_map_modify cur p.1 (fun d => dayMerge d p.2) tag,
        if_neg (fun h => hpt (h.symm : p.1 = tag))]
    · rw [if_neg hc]

/-- A day present in both plans ends up merged by `dayMerge` (incoming day
keys unique, as in a real Python dict). -/
theorem plan_merge_touched (dayMerge : List Mahlzeit → List Mahlzeit → List Mahlzeit)
    (cur inc : Wochenplan) (hinc : (inc.map Prod.fst).Nodup) (tag : String)
    (dc di : List Mahlzeit) (hdc : dlookup tag cur = some dc)
    (hdi : dlookup tag inc = some di) :
    dlookup tag (plan_merge dayMerge cur inc) = some (dayMerge dc di) := by
  induction inc generalizing cur with
  | nil => simp at hdi
  | cons p t ih =>
    simp only [List.map_cons, List.nodup_cons] at hinc
    have hstep : plan_merge dayMerge cur (p :: t)
        = plan_merge dayMerge (if (dlookup p.1 cur).isSome then
            cur.map (fun q => if q.1 = p.1 then (q.1, dayMerge q.2 p.2) else q)
          else cur) t := by
      simp [plan_merge, List.foldl_cons]
    rw [hstep]
    by_cases hp : p.1 = tag
    · have hdi' : di = p.2 := by
        simp [dlookup_cons, hp] at hdi
        exact hdi.symm
      have ht : dlookup tag t = none :=
        dlookup_eq_none_of_not_mem (by rw [← hp]; exact hinc.1)
      rw [plan_merge_untouched _ _ _ _ ht]
      have hc : (dlookup p.1 cur).isSome := by rw [hp, hdc]; rfl
      rw [if_pos hc, dlookup_map_modify cur p.1 (fun d => dayMerge d p.2) tag,
        if_pos (hp.symm : tag = p.1)]
      rw [hp, hdc]
      simp [hdi']
    · have hdi2 : dlookup tag t = some di := by
        simpa [dlookup_cons, hp] using hdi
      by_cases hc : (dlookup p.1 cur).isSome
      · rw [if_pos hc]
        refine ih _ hinc.2 ?_ hdi2
        rw [dlookup_map_modify cur p.1 (fun d => dayMerge d p.2) tag,
          if_neg (fun h => hp (h.symm : p.1 = tag)), hdc]
      · rw [if_neg hc]
        exact ih _ hinc.2 hdc hdi2

theorem dlookup_eq_none_iff {α : Type} {k : String} {l : List (String × α)} :
    dlookup k l = none ↔ k ∉ l.map Prod.fst := by
  constructor
  · intro h hmem
    induction l with
    | nil => simp at hmem
    | cons p t ih =>
      simp only [List.map_cons, List.mem_cons] at hmem
      rcases hmem with hmem | hmem
      · simp [dlookup_cons, hmem] at h
      · by_cases hp : p.1 = k
        · simp [dlookup_cons, hp] at h
        · exact ih (by simpa [dlookup_cons, hp] using h) hmem
  · exact dlookup_eq_none_of_not_mem

/-- The overwrite-mode day loop: with pairwise-distinct incoming times it
keeps exactly the current meals whose time is not among the incoming times,
followed by the incoming meals. -/
theorem foldl_overwrite_eq (dc di : List Mahlzeit)
    (hdi : (di.map Mahlzeit.zeit).Nodup) :
    di.foldl (fun acc m => (acc.filter (fun x => decide (x.zeit ≠ m.zeit))) ++ [m]) dc
      = dc.filter (fun x => decide (x.zeit ∉ di.map Mahlzeit.zeit)) ++ di := by
  induction di generalizing dc with
  | nil => simp
  | cons m t ih =>
    simp only [List.map_cons, List.nodup_cons] at hdi
    rw [List.foldl_cons, ih _ hdi.2, List.filter_append]
    have hmz : ∀ x ∈ t, ¬x.zeit = m.zeit := by simpa using hdi.1
    have h1 : [m].filter (fun x => decide (x.zeit ∉ t.map Mahlzeit.zeit)) = [m] := by
      simp
      exact hmz
    rw [h1, List.filter_filter]
    have h2 : dc.filter (fun x => decide (x.zeit ∉ t.map Mahlzeit.zeit)
          && decide (x.zeit ≠ m.zeit))
        = dc.filter (fun x => decide (x.zeit ∉ (m :: t).map Mahlzeit.zeit)) := by
      apply List.filter_congr
      intro x _
      by_cases hx1 : x.zeit = m.zeit <;> by_cases hx2 : x.zeit ∈ t.map Mahlzeit.zeit <;>
        simp [hx1, hx2]
    rw [h2]
    simp [List.append_assoc]

/-- C5 (amended): merge-overwrite takes the incoming entry on every
ingredient/recipe key collision and keeps the names present in only one side
(right-biased union); for each day present in both plans the incoming meals
are applied in order, each removing any already-present meal with its time
before being appended — so when the incoming day's times are pairwise
distinct, an incoming meal replaces the current meals sharing its time and is
appended otherwise — and the day is re-sorted ascending by time. -/
theorem merge_overwrite_spec (cur inc : Doc)
    (hz : (inc.zutaten.map Prod.fst).Nodup)
    (hr : (inc.rezepte.map Prod.fst).Nodup)
    (hp : (inc.wochenplan.map Prod.fst).Nodup) :
    (∀ n, dlookup n (merge_overwrite cur inc).zutaten
        = (dlookup n inc.zutaten).or (dlookup n cur.zutaten)) ∧
    (∀ n, dlookup n (merge_overwrite cur inc).rezepte
        = (dlookup n inc.rezepte).or (dlookup n cur.rezepte)) ∧
    (∀ tag dc di, dlookup tag cur.wochenplan = some dc →
      dlookup tag inc.wochenplan = some di →
      dlookup tag (merge_overwrite cur inc).wochenplan
        = some (merge_overwrite_day dc di)) ∧
    (∀ dc di, (di.map Mahlzeit.zeit).Nodup →
      (merge_overwrite_day dc di).Perm
        (dc.filter (fun x => decide (x.zeit ∉ di.map Mahlzeit.zeit)) ++ di)) ∧
    (∀ dc di, List.Pairwise zeitLe (merge_overwrite_day dc di)) := by
  refine ⟨fun n => dlookup_dictUpdate _ _ hz n,
    fun n => dlookup_dictUpdate _ _ hr n,
    fun tag dc di hdc hdi => plan_merge_touched _ _ _ hp tag dc di hdc hdi,
    fun dc di hdi => ?_, fun dc di => ?_⟩
  · unfold merge_overwrite_day
    rw [foldl_overwrite_eq dc di hdi]
    exact sortZeit_perm _
  · unfold merge_overwrite_day
    exact sortZeit_sorted _

/-- C6: merge-keep never overwrites — on every key collision the current
entry survives, incoming entries are added only when the name is new
(left-biased union); for each day present in both plans, an incoming meal is
appended only if no current meal shares its exact time, and the day is
re-sorted ascending by time. -/
theorem merge_keep_spec (cur inc : Doc)
    (hp : (inc.wochenplan.map Prod.fst).Nodup) :
    (∀ n, dlookup n (merge_keep cur inc).zutaten
        = (dlookup n cur.zutaten).or (dlookup n inc.zutaten)) ∧
    (∀ n, dlookup n (merge_keep cur inc).rezepte
        = (dlookup n cur.rezepte).or (dlookup n inc.rezepte)) ∧
    (∀ tag dc di, dlookup tag cur.wochenplan = some dc →
      dlookup tag inc.wochenplan = some di →
      dlookup tag (merge_keep cur inc).wochenplan = some (merge_keep_day dc di)) ∧
    (∀ dc di, (merge_keep_day dc di).Perm
        (dc ++ di.filter (fun m => decide (m.zeit ∉ dc.map Mahlzeit.zeit)))) ∧
    (∀ dc di, List.Pairwise zeitLe (merge_keep_day dc di)) := by
  refine ⟨fun n => dlookup_dictKeep _ _ n,
    fun n => dlookup_dictKeep _ _ n,
    fun tag dc di hdc hdi => plan_merge_touched _ _ _ hp tag dc di hdc hdi,
    fun dc di => ?_, fun dc di => ?_⟩
  · unfold merge_keep_day
    exact sortZeit_perm _
  · unfold merge_keep_day
    exact sortZeit_sorted _

/-- C10: in both merge modes an incoming day key absent from the current plan
is silently ignored — the merged plan has exactly the current plan's day
keys, days absent from the incoming plan are left unchanged, and a day
unknown to the current plan stays absent. -/
theorem merge_plan_frame (cur inc : Doc) :
    ((merge_overwrite cur inc).wochenplan.map Prod.fst
      = cur.wochenplan.map Prod.fst) ∧
    ((merge_keep cur inc).wochenplan.map Prod.fst = cur.wochenplan.map Prod.fst) ∧
    (∀ tag, dlookup tag inc.wochenplan = none →
      dlookup tag (merge_overwrite cur inc).wochenplan = dlookup tag cur.wochenplan ∧
      dlookup tag (merge_keep cur inc).wochenplan = dlookup tag cur.wochenplan) ∧
    (∀ tag, dlookup tag cur.wochenplan = none →
      dlookup tag (merge_overwrite cur inc).wochenplan = none ∧
      dlookup tag (merge_keep cur inc).wochenplan = none) := by
  refine ⟨plan_merge_keys _ _ _, plan_merge_keys _ _ _,
    fun tag htag => ⟨plan_merge_untouched _ _ _ _ htag,
      plan_merge_untouched _ _ _ _ htag⟩,
    fun tag htag => ⟨?_, ?_⟩⟩
  · rw [dlookup_eq_none_iff]
    show tag ∉ (plan_merge merge_overwrite_day cur.wochenplan inc.wochenplan).map Prod.fst
    rw [plan_merge_keys]
    exact dlookup_eq_none_iff.mp htag
  · rw [dlookup_eq_none_iff]
    show tag ∉ (plan_merge merge_keep_day cur.wochenplan inc.wochenplan).map Prod.fst
    rw [plan_merge_keys]
    exact dlookup_eq_none_iff.mp htag

/-- Witness for `merge_overwrite_spec` at the concrete merge documents. -/
theorem merge_overwrite_spec_witness :
    (incDocMerge.zutaten.map Prod.fst).Nodup ∧
    (incDocMerge.rezepte.map Prod.fst).Nodup ∧
    (incDocMerge.wochenplan.map Prod.fst).Nodup ∧
    ((∀ n, dlookup n (merge_overwrite curDocMerge incDocMerge).zutaten
        = (dlookup n incDocMerge.zutaten).or (dlookup n curDocMerge.zutaten)) ∧
    (∀ n, dlookup n (merge_overwrite curDocMerge incDocMerge).rezepte
        = (dlookup n incDocMerge.rezepte).or (dlookup n curDocMerge.rezepte)) ∧
    (∀ tag dc di, dlookup tag curDocMerge.wochenplan = some dc →
      dlookup tag incDocMerge.wochenplan = some di →
      dlookup tag (merge_overwrite curDocMerge incDocMerge).wochenplan
        = some (merge_overwrite_day dc di)) ∧
    (∀ dc di, (di.map Mahlzeit.zeit).Nodup →
      (merge_overwrite_day dc di).Perm
        (dc.filter (fun x => decide (x.zeit ∉ di.map Mahlzeit.zeit)) ++ di)) ∧
    (∀ dc di, List.Pairwise zeitLe (merge_overwrite_day dc di))) :=
  ⟨by decide, by decide, by decide,
   merge_overwrite_spec curDocMerge incDocMerge (by decide) (by decide) (by decide)⟩

/-- Witness for `merge_keep_spec` at the concrete merge documents. -/
theorem merge_keep_spec_witness :
    (incDocMerge.wochenplan.map Prod.fst).Nodup ∧
    ((∀ n, dlookup n (merge_keep curDocMerge incDocMerge).zutaten
        = (dlookup n curDocMerge.zutaten).or (dlookup n incDocMerge.zutaten)) ∧
    (∀ n, dlookup n (merge_keep curDocMerge incDocMerge).rezepte
        = (dlookup n curDocMerge.rezepte).or (dlookup n incDocMerge.rezepte)) ∧
    (∀ tag dc di, dlookup tag curDocMerge.wochenplan = some dc →
      dlookup tag incDocMerge.wochenplan = some di →
      dlookup tag (merge_keep curDocMerge incDocMerge).wochenplan
        = some (merge_keep_day dc di)) ∧
    (∀ dc di, (merge_keep_day dc di).Perm
        (dc ++ di.filter (fun m => decide (m.zeit ∉ dc.map Mahlzeit.zeit)))) ∧
    (∀ dc di, List.Pairwise zeitLe (merge_keep_day dc di))) :=
  ⟨by decide, merge_keep_spec curDocMerge incDocMerge (by decide)⟩

theorem dlookup_map_snd {α : Type} (l : List (String × α)) (f : α → α) (n : String) :
    dlookup n (l.map (fun q => (q.1, f q.2))) = (dlookup n l).map f := by
  induction l with
  | nil => rfl
  | cons p t ih =>
    by_cases hp : p.1 = n
    · simp [dlookup_cons, hp]
    · simp [dlookup_cons, hp, ih]

/-- C8: every validation error is atomic — creating an ingredient or recipe
under an existing name, deleting an ingredient still referenced by a recipe,
deleting a recipe still scheduled in the plan, and importing a backup missing
a required top-level key are each rejected with an error (the backup one
naming the missing keys), and the document is left exactly as it was. -/
theorem validation_atomic (doc : Doc) (n1 n2 zn rn : String) (z : Zutat) (r : Rezept)
    (b : BackupData) (mode : ImportMode)
    (h1 : (dlookup n1 doc.zutaten).isSome)
    (h2 : (dlookup n2 doc.rezepte).isSome)
    (h2a : n2 ≠ "") (h2b : r.zutaten ≠ [])
    (h3 : used_in doc zn ≠ [])
    (h4 : used_in_plan doc rn ≠ [])
    (h5 : missing_keys b ≠ []) :
    (add_zutat doc n1 z).1 = doc ∧ (add_zutat doc n1 z).2.isSome ∧
    (add_rezept doc n2 r).1 = doc ∧ (add_rezept doc n2 r).2.isSome ∧
    (delete_zutat doc zn).1 = doc ∧ (delete_zutat doc zn).2.isSome ∧
    (delete_rezept doc rn).1 = doc ∧ (delete_rezept doc rn).2.isSome ∧
    (import_backup doc b mode).1 = doc ∧
    (import_backup doc b mode).2
      = some ("Ungültige Backup-Datei! Fehlende Daten: "
          ++ joinComma (missing_keys b)) := by
  refine ⟨?_, ?_, ?_, ?_, ?_, ?_, ?_, ?_, ?_, ?_⟩
  · simp [add_zutat, h1]
  · simp [add_zutat, h1]
  · simp [add_rezept, h2a, h2b, h2]
  · simp [add_rezept, h2a, h2b, h2]
  · simp [delete_zutat, h3]
  · simp [delete_zutat, h3]
  · simp [delete_rezept, h4]
  · simp [delete_rezept, h4]
  · simp [import_backup, h5]
  · simp [import_backup, h5]

/-- Witness for `validation_atomic`: the current merge-example document, a
duplicate ingredient and recipe name, the in-use ingredient `Reis`, the
scheduled recipe `Reispfanne`, and a backup missing its `zutaten` key. -/
theorem validation_atomic_witness :
    (dlookup "Reis" curDocMerge.zutaten).isSome ∧
    (dlookup "Reispfanne" curDocMerge.rezepte).isSome ∧
    ("Reispfanne" : String) ≠ "" ∧
    (exampleRezept.zutaten ≠ []) ∧
    used_in curDocMerge "Reis" ≠ [] ∧
    used_in_plan curDocMerge "Reispfanne" ≠ [] ∧
    missing_keys ⟨none, some [], some []⟩ ≠ [] ∧
    ((add_zutat curDocMerge "Reis" ⟨1, 1, 1, 1, "Sonstiges"⟩).1 = curDocMerge ∧
    (add_zutat curDocMerge "Reis" ⟨1, 1, 1, 1, "Sonstiges"⟩).2.isSome ∧
    (add_rezept curDocMerge "Reispfanne" exampleRezept).1 = curDocMerge ∧
    (add_rezept curDocMerge "Reispfanne" exampleRezept).2.isSome ∧
    (delete_zutat curDocMerge "Reis").1 = curDocMerge ∧
    (delete_zutat curDocMerge "Reis").2.isSome ∧
    (delete_rezept curDocMerge "Reispfanne").1 = curDocMerge ∧
    (delete_rezept curDocMerge "Reispfanne").2.isSome ∧
    (import_backup curDocMerge ⟨none, some [], some []⟩ ImportMode.ersetzen).1
      = curDocMerge ∧
    (import_backup curDocMerge ⟨none, some [], some []⟩ ImportMode.ersetzen).2
      = some ("Ungültige Backup-Datei! Fehlende Daten: "
          ++ joinComma (missing_keys ⟨none, some [], some []⟩))) :=
  ⟨by decide, by decide, by decide, by decide, by decide, by decide, by decide,
   validation_atomic curDocMerge "Reis" "Reispfanne" "Reis" "Reispfanne"
     ⟨1, 1, 1, 1, "Sonstiges"⟩ exampleRezept ⟨none, some [], some []⟩
     ImportMode.ersetzen (by decide) (by decide) (by decide) (by decide)
     (by decide) (by decide) (by decide)⟩

/-- C9 as stated is false for the Replace import mode: replacing the current
data with a backup whose Monday list is not sorted by time leaves that day's
list unsorted — nothing in the replace branch sorts. -/
theorem replace_preserves_unsorted_counterexample :
    dlookup "Montag" (replace_import exampleDoc unsortedBackup).wochenplan
      = some [⟨"18:00", "Suppe"⟩, ⟨"08:00", "Brei"⟩] ∧
    ¬ List.Pairwise zeitLe [(⟨"18:00", "Suppe"⟩ : Mahlzeit), ⟨"08:00", "Brei"⟩] :=
  ⟨by decide, by decide⟩

/-- C9 (amended): each day list is kept sorted ascending by time by the
mutations that touch it — adding a meal (accepted even at an already occupied
time, with all previous meals kept), deleting by index, clearing a day or the
week, migration, and both merge import modes — while the Replace import
installs the incoming document verbatim, so its day lists are sorted only if
the backup's were. -/
theorem meal_list_sorted_invariant (plan : Wochenplan) (tag zeit rezept : String)
    (idx : ℕ) (day : List Mahlzeit) (hday : dlookup tag plan = some day) :
    dlookup tag (add_meal plan tag zeit rezept)
      = some (sortZeit (day ++ [⟨zeit, rezept⟩])) ∧
    List.Pairwise zeitLe (sortZeit (day ++ [⟨zeit, rezept⟩])) ∧
    (sortZeit (day ++ [⟨zeit, rezept⟩])).Perm (day ++ [⟨zeit, rezept⟩]) ∧
    (List.Pairwise zeitLe day → List.Pairwise zeitLe (day.eraseIdx idx)) ∧
    dlookup tag (delete_meal plan tag idx) = some (day.eraseIdx idx) ∧
    dlookup tag (clear_day plan tag) = some [] ∧
    dlookup tag (clear_week plan) = some [] ∧
    (∀ slots, List.Pairwise zeitLe (migrate_day slots)) ∧
    (∀ dc di, List.Pairwise zeitLe (merge_overwrite_day dc di)) ∧
    (∀ dc di, List.Pairwise zeitLe (merge_keep_day dc di)) ∧
    (∀ cur inc : Doc, replace_import cur inc = inc) := by
  refine ⟨?_, sortZeit_sorted _, sortZeit_perm _, ?_, ?_, ?_, ?_,
    fun slots => ?_, fun dc di => ?_, fun dc di => ?_, fun cur inc => rfl⟩
  · unfold add_meal
    rw [dlookup_map_modify plan tag (fun d => sortZeit (d ++ [Mahlzeit.mk zeit rezept])) tag,
      if_pos rfl, hday]
    rfl
  · intro hsorted
    exact hsorted.sublist (day.eraseIdx_sublist idx)
  · unfold delete_meal
    rw [dlookup_map_modify plan tag (fun d => d.eraseIdx idx) tag, if_pos rfl, hday]
    rfl
  · unfold clear_day
    rw [dlookup_map_modify plan tag (fun _ => ([] : List Mahlzeit)) tag, if_pos rfl, hday]
    rfl
  · unfold clear_week
    rw [dlookup_map_snd plan (fun _ => ([] : List Mahlzeit)) tag, hday]
    rfl
  · unfold migrate_day
    exact sortZeit_sorted _
  · unfold merge_overwrite_day
    exact sortZeit_sorted _
  · unfold merge_keep_day
    exact sortZeit_sorted _

/-- Witness for `meal_list_sorted_invariant`: adding an 08:00 meal to a
Monday that already has an 08:00 meal. -/
theorem meal_list_sorted_invariant_witness :
    dlookup "Montag" curDocMerge.wochenplan
      = some [⟨"08:00", "Brei"⟩, ⟨"12:00", "Reispfanne"⟩] ∧
    (dlookup "Montag" (add_meal curDocMerge.wochenplan "Montag" "08:00" "Linsensuppe")
      = some (sortZeit ([⟨"08:00", "Brei"⟩, ⟨"12:00", "Reispfanne"⟩]
          ++ [⟨"08:00", "Linsensuppe"⟩])) ∧
    List.Pairwise zeitLe (sortZeit ([⟨"08:00", "Brei"⟩, ⟨"12:00", "Reispfanne"⟩]
        ++ [⟨"08:00", "Linsensuppe"⟩])) ∧
    (sortZeit ([⟨"08:00", "Brei"⟩, ⟨"12:00", "Reispfanne"⟩]
        ++ [⟨"08:00", "Linsensuppe"⟩])).Perm
      ([⟨"08:00", "Brei"⟩, ⟨"12:00", "Reispfanne"⟩] ++ [⟨"08:00", "Linsensuppe"⟩]) ∧
    (List.Pairwise zeitLe [(⟨"08:00", "Brei"⟩ : Mahlzeit), ⟨"12:00", "Reispfanne"⟩] →
      List.Pairwise zeitLe
        ([(⟨"08:00", "Brei"⟩ : Mahlzeit), ⟨"12:00", "Reispfanne"⟩].eraseIdx 0)) ∧
    dlookup "Montag" (delete_meal curDocMerge.wochenplan "Montag" 0)
      = some ([(⟨"08:00", "Brei"⟩ : Mahlzeit), ⟨"12:00", "Reispfanne"⟩].eraseIdx 0) ∧
    dlookup "Montag" (clear_day curDocMerge.wochenplan "Montag") = some [] ∧
    dlookup "Montag" (clear_week curDocMerge.wochenplan) = some [] ∧
    (∀ slots, List.Pairwise zeitLe (migrate_day slots)) ∧
    (∀ dc di, List.Pairwise zeitLe (merge_overwrite_day dc di)) ∧
    (∀ dc di, List.Pairwise zeitLe (merge_keep_day dc di)) ∧
    (∀ cur inc : Doc, replace_import cur inc = inc)) :=
  ⟨by decide,
   meal_list_sorted_invariant curDocMerge.wochenplan "Montag" "08:00" "Linsensuppe" 0
     [⟨"08:00", "Brei"⟩, ⟨"12:00", "Reispfanne"⟩] (by decide)⟩

/-- C5 as stated is false when the incoming day has two meals sharing a time:
merging an incoming Monday `[A@12:00, B@12:00]` into a current document whose
Monday is empty leaves only `B`. Meal `A`'s time matches no existing meal of
the current day, yet `A` is not appended to the result — each incoming meal's
filter-then-append (src/meal_planner.py lines 921–925) also removes earlier
same-time *incoming* meals from the accumulating day list. -/
theorem merge_overwrite_drops_earlier_same_time_counterexample :
    dlookup "Montag" (merge_overwrite
        ⟨[], [], [("Montag", [])]⟩
        ⟨[], [], [("Montag", [⟨"12:00", "A"⟩, ⟨"12:00", "B"⟩])]⟩).wochenplan
      = some [⟨"12:00", "B"⟩] ∧
    (⟨"12:00", "A"⟩ : Mahlzeit) ∉ [(⟨"12:00", "B"⟩ : Mahlzeit)] :=
  ⟨by decide, by decide⟩
